import Mathlib

/-!
Shallow embedding of `src/main.py` (ISGlobal MGH 2020 biostatistics grading
script) and verification of its specification claims.

Modelling conventions:
* A REDCap data dictionary is the list of its field names: `List String`
  (the Python code extracts `field['field_name']` into a list).
* Python `float` division is modelled by exact rational division (`ℚ`);
  a `ZeroDivisionError` is modelled by `Option.none`.
* The external REDCap API is modelled as a record of response functions
  (one value per token, deterministic within a run), and, for the
  error-propagation claim, as a record of `Except`-valued functions.
* The `redcap_data_quality_rules` table is a list of rows; a row is its
  `project_id` column together with an opaque payload standing for the
  remaining columns.
-/

/-- Embedding of `compute_completion_pct` (src/main.py lines 88-101):
`correct_fields = set(master_data_dic) & set(student_data_dic)` and the result
is `len(correct_fields) / len(master_data_dic)`.  Python `set` of a list is
`List.toFinset`; float division is modelled as rational division, and the
`ZeroDivisionError` raised when `master_data_dic` is empty is modelled as
`none`. -/
def compute_completion_pct (master_data_dic student_data_dic : List String) : Option ℚ :=
  if master_data_dic.length = 0 then
    none
  else
    let correct_fields := master_data_dic.toFinset ∩ student_data_dic.toFinset
    some ((correct_fields.card : ℚ) / (master_data_dic.length : ℚ))

/-- Row of the grades list built inside the loop of `__main__`
(`compute_student_performance`, src/main.py lines 137-146): the five-element
evaluation list `[project_id, project_name, number_of_fields, completion_pct,
number_of_records]`. -/
structure EvalRow where
  project_id : Int
  project_name : String
  number_of_fields : Nat
  completion_pct : Option ℚ
  number_of_records : Nat
deriving DecidableEq

/-- Row of the final `grades_df` data frame after the `number_of_dqr` column
has been added (src/main.py lines 184-192). -/
structure GradeRow where
  project_id : Int
  project_name : String
  number_of_fields : Nat
  completion_pct : Option ℚ
  number_of_records : Nat
  number_of_dqr : Nat
deriving DecidableEq

/-- Row of the `redcap_data_quality_rules` table read by
`get_all_data_quality_rules` (src/main.py lines 149-166): its `project_id`
column plus an opaque payload standing for the remaining columns. -/
structure RuleRow where
  project_id : Int
  payload : String
deriving DecidableEq

/-- The external REDCap API, modelled as deterministic per-token responses:
`get_data_dictionary`, `get_project_id`, `get_project_name`,
`get_number_of_records` (src/main.py lines 21-85) each map a token to the
extracted attribute of the response. -/
structure Api where
  data_dictionary : String → List String
  project_id : String → Int
  project_name : String → String
  number_of_records : String → Nat

/-- Embedding of `compute_student_performance` (src/main.py lines 122-146).
The Python function reads the module-level global `master_dic`; here that
global is passed explicitly as `master_dic`. -/
def compute_student_performance (api : Api) (master_dic : List String)
    (token : String) : EvalRow :=
  let project_id := api.project_id token
  let project_name := api.project_name token
  let student_dic := api.data_dictionary token
  let number_of_fields := student_dic.length
  let completion_pct := compute_completion_pct master_dic student_dic
  let number_of_records := api.number_of_records token
  ⟨project_id, project_name, number_of_fields, completion_pct, number_of_records⟩

/-- Conversion of an evaluation row into a grades-data-frame row carrying a
`number_of_dqr` value (src/main.py line 188 initialises the column, line 192
overwrites it). -/
def toGradeRow (e : EvalRow) (number_of_dqr : Nat) : GradeRow :=
  ⟨e.project_id, e.project_name, e.number_of_fields, e.completion_pct,
   e.number_of_records, number_of_dqr⟩

/-- Embedding of `rules['project_id'].value_counts()` (src/main.py line 190):
the distinct project ids paired with their number of occurrences.  pandas
orders the pairs by descending count; since the keys are distinct and the
pairs are only ever used as a keyed update, first-occurrence order is an
equivalent modelling choice. -/
def value_counts (pids : List Int) : List (Int × Nat) :=
  pids.dedup.map (fun p => (p, pids.count p))

/-- Embedding of `grades_df.loc[grades_df.project_id == pid, 'number_of_dqr']
= number_of_dqr` (src/main.py line 192): set the `number_of_dqr` field of
every row whose `project_id` equals `pid`. -/
def set_dqr (rows : List GradeRow) (pid : Int) (n : Nat) : List GradeRow :=
  rows.map (fun r => if r.project_id = pid then { r with number_of_dqr := n } else r)

/-- Embedding of src/main.py lines 188-192: initialise `number_of_dqr` to 0
for every row, then for each `(pid, number_of_dqr)` of `value_counts` update
the rows with that project id. -/
def join_dqr (grades : List EvalRow) (rule_pids : List Int) : List GradeRow :=
  let grades_df := grades.map (fun e => toGradeRow e 0)
  (value_counts rule_pids).foldl (fun acc c => set_dqr acc c.1 c.2) grades_df

/-- Embedding of the grades computation of `__main__` (src/main.py
lines 169-192): fetch the master dictionary from the first token
(`tokens.API_TOKEN_20[0]`, modelled by `List.headI`), evaluate every token
against it, and join in the quality-rule counts. -/
def main_grades_df (api : Api) (api_tokens : List String) (rules : List RuleRow) :
    List GradeRow :=
  let master_dic := api.data_dictionary api_tokens.headI
  let grades := api_tokens.map (compute_student_performance api master_dic)
  join_dqr grades (rules.map (fun r => r.project_id))

/-- Embedding of `rules[rules.project_id.isin(grades_df.project_id)]`
(src/main.py line 199): the quality-rule rows whose project id occurs in the
grade table's `project_id` column. -/
def student_rules (rules : List RuleRow) (grades_df : List GradeRow) : List RuleRow :=
  rules.filter (fun r => (grades_df.map (fun g => g.project_id)).contains r.project_id)

/-- The external world of the script with failures made explicit: every
REDCap call (src/main.py lines 21-85), the per-token download with its file
write (lines 104-119), the database read (lines 149-166) and the two CSV
writes (lines 197-200) may fail; the Python exceptions are modelled by
`Except.error`.  `download_data_dictionary` bundles the metadata export and
the file write of lines 104-119 into one fallible operation. -/
structure FApi where
  data_dictionary : String → Except String (List String)
  project_id : String → Except String Int
  project_name : String → Except String String
  number_of_records : String → Except String Nat
  download_data_dictionary : String → Except String Unit
  get_all_data_quality_rules : Except String (List RuleRow)
  write_grades : List GradeRow → Except String Unit
  write_student_rules : List RuleRow → Except String Unit

/-- Lift of the scorer into the fallible world: the `none` of
`compute_completion_pct` is the uncaught `ZeroDivisionError` of src/main.py
line 101. -/
def liftPct (o : Option ℚ) : Except String ℚ :=
  match o with
  | none => Except.error "ZeroDivisionError"
  | some q => Except.ok q

/-- Fallible embedding of `compute_student_performance` (src/main.py
lines 122-146): the calls are issued in source order and any failure aborts
the evaluation. -/
def compute_student_performance_e (api : FApi) (master_dic : List String)
    (token : String) : Except String EvalRow :=
  (api.project_id token).bind fun project_id =>
  (api.project_name token).bind fun project_name =>
  (api.data_dictionary token).bind fun student_dic =>
  (liftPct (compute_completion_pct master_dic student_dic)).bind fun completion_pct =>
  (api.number_of_records token).map fun number_of_records =>
  ⟨project_id, project_name, student_dic.length, some completion_pct, number_of_records⟩

/-- Fallible embedding of the per-token loop of `__main__` (src/main.py
lines 176-182): evaluate the student, then download the dictionary; a
failure at any token aborts the loop. -/
def grades_loop (api : FApi) (master_dic : List String) :
    List String → Except String (List EvalRow)
  | [] => Except.ok []
  | t :: ts =>
    (compute_student_performance_e api master_dic t).bind fun row =>
    (api.download_data_dictionary t).bind fun _ =>
    (grades_loop api master_dic ts).map fun rest => row :: rest

/-- Fallible embedding of the whole `__main__` block (src/main.py
lines 169-200): master fetch, loop, rule-table read, grade write, filtered
rule write; an empty token list is the `IndexError` of
`tokens.API_TOKEN_20[0]`. -/
def main_run (api : FApi) (api_tokens : List String) : Except String Unit :=
  match api_tokens with
  | [] => Except.error "IndexError"
  | t0 :: ts =>
    (api.data_dictionary t0).bind fun master_dic =>
    (grades_loop api master_dic (t0 :: ts)).bind fun grades =>
    api.get_all_data_quality_rules.bind fun rules =>
    let grades_df := join_dqr grades (rules.map (fun r => r.project_id))
    (api.write_grades grades_df).bind fun _ =>
    api.write_student_rules (student_rules rules grades_df)

/-- An `Except` computation that succeeded. -/
def okP {α : Type} (e : Except String α) : Prop := ∃ x, e = Except.ok x

/-- All operations issued for one token succeed, and the master dictionary
admits the division. -/
def token_step_ok (api : FApi) (master_dic : List String) (t : String) : Prop :=
  okP (api.project_id t) ∧ okP (api.project_name t) ∧ okP (api.data_dictionary t) ∧
  master_dic ≠ [] ∧ okP (api.number_of_records t) ∧
  okP (api.download_data_dictionary t)

/-- Every operation of the run succeeds: the token list is non-empty, the
master fetch, every per-token operation, the rule-table read and both CSV
writes succeed. -/
def run_success (api : FApi) (api_tokens : List String) : Prop :=
  match api_tokens with
  | [] => False
  | t0 :: ts =>
    ∃ master_dic grades rules,
      api.data_dictionary t0 = Except.ok master_dic ∧
      (∀ t ∈ t0 :: ts, token_step_ok api master_dic t) ∧
      grades_loop api master_dic (t0 :: ts) = Except.ok grades ∧
      api.get_all_data_quality_rules = Except.ok rules ∧
      okP (api.write_grades (join_dqr grades (rules.map (fun r => r.project_id)))) ∧
      okP (api.write_student_rules (student_rules rules
        (join_dqr grades (rules.map (fun r => r.project_id)))))

/-! ### Helper lemmas -/

/-- On a non-empty master list, `compute_completion_pct` returns the
intersection cardinality divided by the master length. -/
lemma compute_completion_pct_of_ne_nil (M S : List String) (h : M ≠ []) :
    compute_completion_pct M S
      = some (((M.toFinset ∩ S.toFinset).card : ℚ) / (M.length : ℚ)) := by
  have hlen : M.length ≠ 0 := fun hc => h (List.length_eq_zero.mp hc)
  simp [compute_completion_pct, hlen]

/-- A duplicate-free non-empty master scored against itself gives 1. -/
lemma compute_completion_pct_self_of_nodup (M : List String) (h1 : M ≠ [])
    (h2 : M.Nodup) : compute_completion_pct M M = some 1 := by
  rw [compute_completion_pct_of_ne_nil M M h1]
  have hcard : (M.toFinset ∩ M.toFinset).card = M.length := by
    rw [Finset.inter_self, List.toFinset_card_of_nodup h2]
  rw [hcard]
  have hlen : (M.length : ℚ) ≠ 0 := by
    exact_mod_cast fun hc => h1 (List.length_eq_zero.mp (by exact_mod_cast hc))
  rw [div_self hlen]

/-! ### Claims C1, C2, C4, C5 about the completion scorer -/

/-- C1: for every pair of field-name lists with the master non-empty,
`compute_completion_pct` returns the cardinality of the set intersection
divided by the number of elements of the master, and that value lies in
the interval from 0 to 1. -/
theorem completion_pct_spec (M S : List String) (h : M ≠ []) :
    ∃ q : ℚ, compute_completion_pct M S = some q ∧
      q = ((M.toFinset ∩ S.toFinset).card : ℚ) / (M.length : ℚ) ∧
      0 ≤ q ∧ q ≤ 1 := by
  refine ⟨((M.toFinset ∩ S.toFinset).card : ℚ) / (M.length : ℚ),
    compute_completion_pct_of_ne_nil M S h, rfl, ?_, ?_⟩
  · exact div_nonneg (by positivity) (by positivity)
  · have hlen : 0 < M.length := List.length_pos.mpr h
    have hcard : (M.toFinset ∩ S.toFinset).card ≤ M.length :=
      le_trans (Finset.card_le_card (Finset.inter_subset_left)) (List.toFinset_card_le M)
    rw [div_le_one (by exact_mod_cast hlen)]
    exact_mod_cast hcard

/-- Witness for C1: the spec's own end-to-end example, master
`["age","sex","weight"]` versus student `["age","sex"]`. -/
theorem completion_pct_spec_witness :
    ∃ q : ℚ, compute_completion_pct ["age", "sex", "weight"] ["age", "sex"] = some q ∧
      q = (((["age", "sex", "weight"] : List String).toFinset ∩
            (["age", "sex"] : List String).toFinset).card : ℚ) /
          ((["age", "sex", "weight"] : List String).length : ℚ) ∧
      0 ≤ q ∧ q ≤ 1 :=
  completion_pct_spec ["age", "sex", "weight"] ["age", "sex"] (by decide)

/-- The scorer returns the division-by-zero marker exactly on an empty
master list. -/
lemma compute_completion_pct_eq_none_iff (M S : List String) :
    compute_completion_pct M S = none ↔ M = [] := by
  unfold compute_completion_pct
  by_cases hlen : M.length = 0
  · simp [hlen, List.length_eq_zero.mp hlen]
  · have hne : M ≠ [] := fun hc => hlen (by rw [hc]; rfl)
    simp [hlen, hne]

/-- C2: `compute_completion_pct` hits the division-by-zero error (modelled
by `none`) exactly when the master field-name list is empty. -/
theorem completion_pct_none_iff (M S : List String) :
    compute_completion_pct M S = none ↔ M = [] :=
  compute_completion_pct_eq_none_iff M S

/-- C4 counterexample: a master list with a duplicate entry scored against
itself does not reach 1, because the Python code compares the length of the
set intersection with the length of the raw list: on
`M = ["a", "a"]` the result is 1/2. -/
theorem completion_pct_self_dup_counterexample :
    compute_completion_pct ["a", "a"] ["a", "a"] ≠ some 1 := by
  rw [compute_completion_pct_of_ne_nil _ _ (by decide)]
  have hcard : (((["a", "a"] : List String).toFinset ∩
      (["a", "a"] : List String).toFinset).card) = 1 := by decide
  rw [hcard]
  simp only [List.length_cons, List.length_nil]
  intro hc
  rw [Option.some_inj] at hc
  norm_num at hc

/-- C4 (amended): for every non-empty master list without duplicate entries,
scoring the master against itself yields exactly 1. -/
theorem completion_pct_self (M : List String) (h1 : M ≠ []) (h2 : M.Nodup) :
    compute_completion_pct M M = some 1 :=
  compute_completion_pct_self_of_nodup M h1 h2

/-- Witness for C4 (amended) at the concrete duplicate-free master
`["age","sex","weight"]`. -/
theorem completion_pct_self_witness :
    compute_completion_pct ["age", "sex", "weight"] ["age", "sex", "weight"] = some 1 :=
  completion_pct_self ["age", "sex", "weight"] (by decide) (by decide)

/-- C5: the score is invariant under permuting the master list and under any
change of the student list that preserves its set of distinct names (in
particular under permutations of the student list and under duplicate
entries in it). -/
theorem completion_pct_order_irrelevant (M M' S S' : List String)
    (hM : M.Perm M') (hS : S.toFinset = S'.toFinset) :
    compute_completion_pct M S = compute_completion_pct M' S' := by
  have hlen : M.length = M'.length := hM.length_eq
  have hfin : M.toFinset = M'.toFinset := List.toFinset_eq_of_perm M M' hM
  unfold compute_completion_pct
  rw [hlen, hfin, hS]

/-- Witness for C5: reordering the master and duplicating a student entry
leave the score unchanged. -/
theorem completion_pct_order_irrelevant_witness :
    compute_completion_pct ["age", "sex"] ["age"]
      = compute_completion_pct ["sex", "age"] ["age", "age"] :=
  completion_pct_order_irrelevant ["age", "sex"] ["sex", "age"] ["age"] ["age", "age"]
    (by decide) (by decide)

/-! ### Helper lemmas for the quality-rule join -/

/-- Replaying a list of keyed count updates on a single cell: each update
whose key matches `pid` overwrites the current value. -/
def fold_cell (cs : List (Int × Nat)) (pid : Int) (i0 : Nat) : Nat :=
  cs.foldl (fun cur c => if pid = c.1 then c.2 else cur) i0

/-- Folding the keyed updates over the whole table acts on each row
independently: the result maps each row to the replay of the updates on its
own count cell. -/
lemma foldl_set_dqr (cs : List (Int × Nat)) (rows : List GradeRow) :
    cs.foldl (fun acc c => set_dqr acc c.1 c.2) rows
      = rows.map (fun r =>
          { r with number_of_dqr := fold_cell cs r.project_id r.number_of_dqr }) := by
  induction cs generalizing rows with
  | nil => simp [fold_cell]
  | cons c cs ih =>
    rw [List.foldl_cons, ih, set_dqr, List.map_map]
    refine List.map_congr_left (fun r _ => ?_)
    by_cases h : r.project_id = c.1 <;> simp [Function.comp, fold_cell, h]

/-- Replaying lookups built from a key list returns the count of the key
when present and the initial value otherwise. -/
lemma fold_cell_lookup (pids : List Int) (l : List Int) (pid : Int) (i0 : Nat) :
    fold_cell (l.map (fun p => (p, pids.count p))) pid i0
      = if pid ∈ l then pids.count pid else i0 := by
  induction l generalizing i0 with
  | nil => simp [fold_cell]
  | cons p l ih =>
    rw [List.map_cons, fold_cell, List.foldl_cons]
    rw [show List.foldl (fun cur c => if pid = c.1 then c.2 else cur)
        (if pid = p then pids.count p else i0) (l.map (fun p => (p, pids.count p)))
      = fold_cell (l.map (fun p => (p, pids.count p))) pid
          (if pid = p then pids.count p else i0) from rfl, ih]
    by_cases hmem : pid ∈ l
    · simp [hmem]
    · by_cases heq : pid = p
      · subst heq; simp [hmem]
      · simp [hmem, heq, List.mem_cons]

/-- Characterisation of the quality-rule join: every row keeps its evaluation
fields and receives as `number_of_dqr` the number of table rows carrying its
project id. -/
lemma join_dqr_eq (grades : List EvalRow) (rule_pids : List Int) :
    join_dqr grades rule_pids
      = grades.map (fun e => toGradeRow e (rule_pids.count e.project_id)) := by
  rw [join_dqr, foldl_set_dqr, List.map_map]
  refine List.map_congr_left (fun e _ => ?_)
  simp only [Function.comp, value_counts, toGradeRow, fold_cell_lookup]
  by_cases hmem : e.project_id ∈ rule_pids
  · simp [List.mem_dedup, hmem]
  · simp [List.mem_dedup, hmem, List.count_eq_zero.mpr hmem]

/-! ### Claim C3: left-join semantics of the quality-rule aggregation -/

/-- C3: the per-project counts of `value_counts` sum to the number of table
rows; the join keeps one output row per input row; and an input row whose
project id does not occur in the table still yields an output row, with
`number_of_dqr` equal to 0. -/
theorem dqr_join_left_semantics (rule_pids : List Int) (grades : List EvalRow) :
    ((value_counts rule_pids).map Prod.snd).sum = rule_pids.length ∧
    (join_dqr grades rule_pids).length = grades.length ∧
    ∀ (i : Nat) (e : EvalRow), grades[i]? = some e → e.project_id ∉ rule_pids →
      (join_dqr grades rule_pids)[i]? = some (toGradeRow e 0) := by
  refine ⟨?_, ?_, ?_⟩
  · rw [value_counts, List.map_map]
    simpa [Function.comp] using List.sum_map_count_dedup_eq_length rule_pids
  · rw [join_dqr_eq, List.length_map]
  · intro i e hget hmem
    rw [join_dqr_eq]
    rw [List.getElem?_map, hget, Option.map_some', List.count_eq_zero.mpr hmem]

/-- Witness for C3: the spec's example table with project ids 1, 1, 2 and an
evaluated project 3 absent from the table, which keeps its row with a zero
count. -/
theorem dqr_join_left_semantics_witness :
    ((value_counts [1, 1, 2]).map Prod.snd).sum = ([1, 1, 2] : List Int).length ∧
    (join_dqr [⟨1, "p1", 3, some 1, 4⟩, ⟨2, "p2", 2, none, 0⟩, ⟨3, "p3", 1, none, 5⟩]
        [1, 1, 2]).length = 3 ∧
    (join_dqr [⟨1, "p1", 3, some 1, 4⟩, ⟨2, "p2", 2, none, 0⟩, ⟨3, "p3", 1, none, 5⟩]
        [1, 1, 2])[2]? = some (toGradeRow ⟨3, "p3", 1, none, 5⟩ 0) := by
  obtain ⟨h1, h2, h3⟩ := dqr_join_left_semantics [1, 1, 2]
    [⟨1, "p1", 3, some 1, 4⟩, ⟨2, "p2", 2, none, 0⟩, ⟨3, "p3", 1, none, 5⟩]
  exact ⟨h1, h2, h3 2 ⟨3, "p3", 1, none, 5⟩ (by decide) (by decide)⟩

/-! ### Helper lemmas for the main pipeline -/

/-- Characterisation of the grades table produced by `__main__`: one row per
token, each scored against the dictionary of the first token, with the
quality-rule count of its project id joined in. -/
lemma main_grades_df_eq (api : Api) (t0 : String) (rest : List String)
    (rules : List RuleRow) :
    main_grades_df api (t0 :: rest) rules
      = (t0 :: rest).map (fun t =>
          toGradeRow (compute_student_performance api (api.data_dictionary t0) t)
            ((rules.map (fun r => r.project_id)).count (api.project_id t))) := by
  simp only [main_grades_df, List.headI, join_dqr_eq, List.map_map]
  refine List.map_congr_left (fun t _ => ?_)
  simp [Function.comp, compute_student_performance]

/-- Concrete two-project API used by witnesses: token t0 is the master with
the three-field dictionary of the spec's example, every other token answers
with a two-field dictionary. -/
def apiA : Api where
  data_dictionary := fun t => if t = "t0" then ["age", "sex", "weight"] else ["age", "sex"]
  project_id := fun t => if t = "t0" then 1 else 2
  project_name := fun t => t
  number_of_records := fun _ => 4

/-- Concrete API whose every project has an empty data dictionary; used as a
counterexample input. -/
def apiEmptyDic : Api where
  data_dictionary := fun _ => []
  project_id := fun _ => 7
  project_name := fun _ => "master"
  number_of_records := fun _ => 0

/-! ### Claims C6, C7, C10 about the main pipeline -/

/-- C6: in a run over a non-empty token list, every student's completion
percentage is computed against the one master dictionary fetched from the
first token: the i-th report row scores the dictionary of the i-th token
against the dictionary of the first token. -/
theorem master_fixed_across_run (api : Api) (t0 : String) (rest : List String)
    (rules : List RuleRow) (i : Nat) (t : String)
    (h : (t0 :: rest)[i]? = some t) :
    ∃ r : GradeRow, (main_grades_df api (t0 :: rest) rules)[i]? = some r ∧
      r.completion_pct
        = compute_completion_pct (api.data_dictionary t0) (api.data_dictionary t) := by
  rw [main_grades_df_eq, List.getElem?_map, h, Option.map_some']
  exact ⟨_, rfl, rfl⟩

/-- Witness for C6: with the concrete API `apiA` and tokens t0, t1, the
second report row scores token t1 against the dictionary of token t0. -/
theorem master_fixed_across_run_witness :
    ∃ r : GradeRow, (main_grades_df apiA ["t0", "t1"] [])[1]? = some r ∧
      r.completion_pct
        = compute_completion_pct (apiA.data_dictionary "t0") (apiA.data_dictionary "t1") :=
  master_fixed_across_run apiA "t0" ["t1"] [] 1 "t1" (by decide)

/-- C7: the final report has exactly one row per API token, and the i-th row
carries the project id, project name, dictionary length, completion
percentage against the master, record count of the i-th token, and the
quality-rule count of its project id joined in after the loop. -/
theorem report_shape (api : Api) (t0 : String) (rest : List String)
    (rules : List RuleRow) :
    (main_grades_df api (t0 :: rest) rules).length = (t0 :: rest).length ∧
    ∀ (i : Nat) (t : String), (t0 :: rest)[i]? = some t →
      (main_grades_df api (t0 :: rest) rules)[i]?
        = some ⟨api.project_id t, api.project_name t, (api.data_dictionary t).length,
            compute_completion_pct (api.data_dictionary t0) (api.data_dictionary t),
            api.number_of_records t,
            (rules.map (fun r => r.project_id)).count (api.project_id t)⟩ := by
  refine ⟨by rw [main_grades_df_eq, List.length_map], fun i t h => ?_⟩
  rw [main_grades_df_eq, List.getElem?_map, h, Option.map_some']
  rfl

/-- Witness for C7: concrete run over two tokens and a one-row rule table;
the first report row is fully determined. -/
theorem report_shape_witness :
    (main_grades_df apiA ["t0", "t1"] [⟨1, "rule1"⟩]).length
      = (["t0", "t1"] : List String).length ∧
    (main_grades_df apiA ["t0", "t1"] [⟨1, "rule1"⟩])[0]?
      = some ⟨apiA.project_id "t0", apiA.project_name "t0",
          (apiA.data_dictionary "t0").length,
          compute_completion_pct (apiA.data_dictionary "t0") (apiA.data_dictionary "t0"),
          apiA.number_of_records "t0",
          (([⟨1, "rule1"⟩] : List RuleRow).map (fun r => r.project_id)).count
            (apiA.project_id "t0")⟩ :=
  ⟨(report_shape apiA "t0" ["t1"] [⟨1, "rule1"⟩]).1,
   (report_shape apiA "t0" ["t1"] [⟨1, "rule1"⟩]).2 0 "t0" (by decide)⟩

/-- C10 counterexample: with an API whose master dictionary is empty, the
master dictionary contains no duplicate field names, yet the report contains
no row for the master project with completion percentage 1: the master's own
row carries the division-by-zero value, not 1. -/
theorem master_row_counterexample :
    (apiEmptyDic.data_dictionary "t").Nodup ∧
    ¬ ∃ r ∈ main_grades_df apiEmptyDic ["t"] [],
        r.project_id = apiEmptyDic.project_id "t" ∧ r.completion_pct = some 1 := by
  decide

/-- C10 (amended): the first token is also processed as a student, so the
report's first row is the master project's own row; when the master
dictionary is non-empty and free of duplicate field names, that row's
completion percentage is 1. -/
theorem master_row_graded (api : Api) (t0 : String) (rest : List String)
    (rules : List RuleRow) (h1 : api.data_dictionary t0 ≠ [])
    (h2 : (api.data_dictionary t0).Nodup) :
    ∃ r : GradeRow, (main_grades_df api (t0 :: rest) rules).head? = some r ∧
      r.project_id = api.project_id t0 ∧ r.completion_pct = some 1 := by
  rw [main_grades_df_eq, List.map_cons, List.head?_cons]
  refine ⟨_, rfl, rfl, ?_⟩
  exact compute_completion_pct_self_of_nodup _ h1 h2

/-- Witness for C10 (amended): with the concrete API `apiA`, whose master
dictionary is non-empty and duplicate-free, the first report row is the
master's and scores 1. -/
theorem master_row_graded_witness :
    ∃ r : GradeRow, (main_grades_df apiA ["t0", "t1"] []).head? = some r ∧
      r.project_id = apiA.project_id "t0" ∧ r.completion_pct = some 1 :=
  master_row_graded apiA "t0" ["t1"] [] (by decide) (by decide)

/-! ### Claim C8 about the persisted quality-rule artifact -/

/-- C8: the persisted quality-rules artifact holds exactly those rows of the
quality-rule table whose project id occurs among the project ids of the grade
table. -/
theorem dqr_artifact_filter (rules : List RuleRow) (grades_df : List GradeRow)
    (r : RuleRow) :
    r ∈ student_rules rules grades_df ↔
      r ∈ rules ∧ r.project_id ∈ grades_df.map (fun g => g.project_id) := by
  simp [student_rules, List.mem_filter, List.elem_iff]

/-! ### Helper lemmas for the fallible model -/

/-- A bind succeeds with a value exactly when its first stage succeeds and
its continuation succeeds on the produced value. -/
lemma bind_eq_ok {α β : Type} {a : Except String α} {f : α → Except String β}
    {b : β} :
    a.bind f = Except.ok b ↔ ∃ x, a = Except.ok x ∧ f x = Except.ok b := by
  cases a <;> simp [Except.bind]

/-- A map succeeds with a value exactly when its argument succeeds with a
preimage. -/
lemma map_eq_ok {α β : Type} {a : Except String α} {f : α → β} {b : β} :
    a.map f = Except.ok b ↔ ∃ x, a = Except.ok x ∧ f x = b := by
  cases a <;> simp [Except.map]

/-- The lifted scorer succeeds exactly when the master list is non-empty. -/
lemma liftPct_ok (master_dic student_dic : List String) :
    okP (liftPct (compute_completion_pct master_dic student_dic)) ↔
      master_dic ≠ [] := by
  by_cases h : master_dic = []
  · rw [(compute_completion_pct_eq_none_iff master_dic student_dic).mpr h]
    simp [liftPct, okP, h]
  · obtain ⟨q, hq⟩ : ∃ q, compute_completion_pct master_dic student_dic = some q := by
      rcases hcc : compute_completion_pct master_dic student_dic with _ | q
      · exact absurd ((compute_completion_pct_eq_none_iff _ _).mp hcc) h
      · exact ⟨q, rfl⟩
    rw [hq]
    simp [liftPct, okP, h]

/-- A student evaluation succeeds exactly when its four API calls succeed and
the master dictionary is non-empty. -/
lemma compute_student_performance_e_ok (api : FApi) (master_dic : List String)
    (t : String) :
    okP (compute_student_performance_e api master_dic t) ↔
      okP (api.project_id t) ∧ okP (api.project_name t) ∧
      okP (api.data_dictionary t) ∧ master_dic ≠ [] ∧
      okP (api.number_of_records t) := by
  constructor
  · rintro ⟨row, hrow⟩
    rw [compute_student_performance_e] at hrow
    obtain ⟨pid, hpid, hrow⟩ := bind_eq_ok.mp hrow
    obtain ⟨pname, hpname, hrow⟩ := bind_eq_ok.mp hrow
    obtain ⟨sd, hsd, hrow⟩ := bind_eq_ok.mp hrow
    obtain ⟨pct, hpct, hrow⟩ := bind_eq_ok.mp hrow
    obtain ⟨nrec, hnrec, _⟩ := map_eq_ok.mp hrow
    exact ⟨⟨pid, hpid⟩, ⟨pname, hpname⟩, ⟨sd, hsd⟩,
      (liftPct_ok master_dic sd).mp ⟨pct, hpct⟩, ⟨nrec, hnrec⟩⟩
  · rintro ⟨⟨pid, hpid⟩, ⟨pname, hpname⟩, ⟨sd, hsd⟩, hm, ⟨nrec, hnrec⟩⟩
    obtain ⟨pct, hpct⟩ := (liftPct_ok master_dic sd).mpr hm
    refine ⟨⟨pid, pname, sd.length, some pct, nrec⟩, ?_⟩
    rw [compute_student_performance_e]
    exact bind_eq_ok.mpr ⟨pid, hpid, bind_eq_ok.mpr ⟨pname, hpname,
      bind_eq_ok.mpr ⟨sd, hsd, bind_eq_ok.mpr ⟨pct, hpct,
        map_eq_ok.mpr ⟨nrec, hnrec, rfl⟩⟩⟩⟩⟩

/-- The loop succeeds exactly when every token's operations succeed. -/
lemma grades_loop_ok (api : FApi) (master_dic : List String) (ts : List String) :
    okP (grades_loop api master_dic ts) ↔
      ∀ t ∈ ts, token_step_ok api master_dic t := by
  induction ts with
  | nil => simp [grades_loop, okP]
  | cons t ts ih =>
    constructor
    · rintro ⟨g, hg⟩
      rw [grades_loop] at hg
      obtain ⟨row, hrow, hg⟩ := bind_eq_ok.mp hg
      obtain ⟨u, hu, hg⟩ := bind_eq_ok.mp hg
      obtain ⟨rest, hrest, _⟩ := map_eq_ok.mp hg
      intro t2 ht2
      rcases List.mem_cons.mp ht2 with h2 | h2
      · subst h2
        obtain ⟨h1, h2, h3, h4, h5⟩ :=
          (compute_student_performance_e_ok api master_dic t2).mp ⟨row, hrow⟩
        exact ⟨h1, h2, h3, h4, h5, ⟨u, hu⟩⟩
      · exact ih.mp ⟨rest, hrest⟩ t2 h2
    · intro hall
      obtain ⟨h1, h2, h3, h4, h5, ⟨u, hu⟩⟩ := hall t (List.mem_cons_self t ts)
      obtain ⟨row, hrow⟩ :=
        (compute_student_performance_e_ok api master_dic t).mpr ⟨h1, h2, h3, h4, h5⟩
      obtain ⟨rest, hrest⟩ := ih.mpr (fun t2 ht2 => hall t2 (List.mem_cons_of_mem t ht2))
      refine ⟨row :: rest, ?_⟩
      rw [grades_loop]
      exact bind_eq_ok.mpr ⟨row, hrow, bind_eq_ok.mpr ⟨u, hu,
        map_eq_ok.mpr ⟨rest, hrest, rfl⟩⟩⟩

/-! ### Claim C9: every failure is fatal -/

/-- C9: nothing in the pipeline catches errors: the run succeeds exactly
when every underlying operation it performs succeeds (and the token list is
non-empty and the master dictionary admits the division), so any failing
operation makes the whole run fail with no retry and no partial result. -/
theorem errors_propagate (api : FApi) (api_tokens : List String) :
    okP (main_run api api_tokens) ↔ run_success api api_tokens := by
  cases api_tokens with
  | nil => simp [main_run, run_success, okP]
  | cons t0 ts =>
    constructor
    · rintro ⟨u, hu⟩
      rw [main_run] at hu
      obtain ⟨m, hm, hu⟩ := bind_eq_ok.mp hu
      obtain ⟨g, hg, hu⟩ := bind_eq_ok.mp hu
      obtain ⟨rules, hrules, hu⟩ := bind_eq_ok.mp hu
      obtain ⟨u1, hu1, hu2⟩ := bind_eq_ok.mp hu
      exact ⟨m, g, rules, hm, (grades_loop_ok api m (t0 :: ts)).mp ⟨g, hg⟩,
        hg, hrules, ⟨u1, hu1⟩, ⟨u, hu2⟩⟩
    · rintro ⟨m, g, rules, hm, _hall, hg, hrules, ⟨u1, hu1⟩, ⟨u2, hu2⟩⟩
      refine ⟨u2, ?_⟩
      rw [main_run]
      exact bind_eq_ok.mpr ⟨m, hm, bind_eq_ok.mpr ⟨g, hg,
        bind_eq_ok.mpr ⟨rules, hrules, bind_eq_ok.mpr ⟨u1, hu1, hu2⟩⟩⟩⟩
